import Mathlib

/-!
# Wellball Game Scoring & Auto-Ingest Coordinator — verification development

A shallow embedding of the scoring core of the Wellball application:

* `src/services/gameService.js` — the transactional shot-logging / undo engine
  (`logShot`, `deleteLogAndReverse`, `recomputeSpecialsForChallenge`);
* `src/services/challengeRules.js` — the shot-rule evaluator (`shotMatchesRule`);
* `src/services/autoTrackingService.js` — the auto-ingest coordinator
  (`setAutoMode`, `safeProcessEvent` decision procedure);
* `src/services/coordinatorFuser.js` — the per-cluster outcome fusion.

JavaScript numbers used for scores are embedded as `Int` (all score arithmetic
in the source stays on small integers), confidences and thresholds as `ℚ`
(the relevant logic is order-theoretic: comparisons, `Math.min`/`Math.max`,
which are exact in any linear order).  Firestore documents become Lean
structures; a transaction body becomes a pure function returning
`Except String …` — a thrown error aborts the transaction before any write
commits, so the error case carries no state.  Log subcollections become lists
ordered by ascending timestamp (appends happen at the tail), with document ids
modelled as `Nat` supplied by the caller as fresh ids.
-/

namespace Wellball

/-- Team key `'A' | 'B'`. -/
inductive Team where
  | A
  | B
deriving DecidableEq, Repr

/-- A `{A: number, B: number}` score map (`matchScore`, `challengeScore`). -/
structure Scores where
  A : Int
  B : Int
deriving DecidableEq, Repr

/-- Read a score cell. -/
def Scores.get (s : Scores) : Team → Int
  | .A => s.A
  | .B => s.B

/-- Write a score cell. -/
def Scores.set (s : Scores) : Team → Int → Scores
  | .A, v => { s with A := v }
  | .B, v => { s with B := v }

/-- Per-team specialty usage `{ moneyUsed, gcUsed }` (gameService.js:38-41). -/
structure SpecialFlags where
  moneyUsed : Bool
  gcUsed : Bool
deriving DecidableEq, Repr

/-- `specials: { A: {...}, B: {...} }`. -/
structure Specials where
  A : SpecialFlags
  B : SpecialFlags
deriving DecidableEq, Repr

/-- Read one team's specialty flags. -/
def Specials.get (s : Specials) : Team → SpecialFlags
  | .A => s.A
  | .B => s.B

/-- Update one team's specialty flags. -/
def Specials.set (s : Specials) : Team → SpecialFlags → Specials
  | .A, v => { s with A := v }
  | .B, v => { s with B := v }

/-- The `challengeWon` record (gameService.js:32, written at lines 418-428).
The server timestamp `ts` is omitted: it is opaque to every piece of logic
embedded here.  `winLogId` is optional in the stored schema (legacy docs may
lack it), which is what the undo fallback path keys on. -/
structure ChallengeWon where
  team : Team
  atIndex : Int
  scoreA : Int
  scoreB : Int
  pointsForWin : Int
  shutout : Bool
  winLogId : Option Nat
deriving DecidableEq, Repr

/-- One document of `games/{id}/logs`.  Attempt logs (gameService.js:436-451)
have `type = ""` (no discriminator field in the source); win logs
(gameService.js:455-464) have `type = "challenge_win"`, no `made`/`moneyball`
of their own (embedded as `false`) and `shotType = ""` (absent).  Fields not
read by any embedded operation (timestamps, provenance, court metadata) are
omitted. -/
structure LogEntry where
  id : Nat
  type : String
  playerId : String
  shotType : String
  made : Bool
  moneyball : Bool
  team : Option Team
  challengeIndex : Int
deriving DecidableEq, Repr

/-- Per-team tracker locks; only the owning uid is consulted by `logShot`. -/
structure Locks where
  A : Option String
  B : Option String
deriving DecidableEq, Repr

/-- Read one team's lock. -/
def Locks.get (l : Locks) : Team → Option String
  | .A => l.A
  | .B => l.B

/-- The `games/{gameId}` root document, restricted to the fields read or
written by the embedded operations (gameService.js:13-62). -/
structure Game where
  teamAIds : List String
  teamBIds : List String
  currentChallengeIndex : Int
  matchScore : Scores
  challengeScore : Scores
  challengeWon : Option ChallengeWon
  specials : Specials
  bonusActive : Bool
  status : String
  clockRunning : Bool
  paused : Bool
  rolesMain : String
  trackerLocks : Locks
deriving DecidableEq, Repr

/-- `shotPoints` (gameService.js:232-248): the fixed value table. -/
def shotPoints (shotType : String) (made : Bool) (moneyball : Bool) : Int :=
  if !made then 0
  else if shotType = "bonus_mid" then 1
  else if shotType = "bonus_long" then 2
  else if shotType = "bonus_gc" then 4
  else if shotType = "bonus" then 1
  else if shotType = "gamechanger" then 5
  else if shotType = "mid" ∨ shotType = "long" then (if moneyball then 2 else 1)
  else 0

/-- JS `String.prototype.startsWith`, embedded on the character list so that
it evaluates by kernel reduction (Lean's own `String.startsWith` loops on byte
positions by well-founded recursion, which `decide` cannot unfold). -/
def strStartsWith (s pre : String) : Bool :=
  pre.data.isPrefixOf s.data

/-- `isBonusType` (gameService.js:250). -/
def isBonusType (t : String) : Bool :=
  t = "bonus" || strStartsWith t "bonus_"

/-- `playerTeamKey` (gameService.js:252-256). -/
def playerTeamKey (g : Game) (playerId : String) : Option Team :=
  if g.teamAIds.contains playerId then some Team.A
  else if g.teamBIds.contains playerId then some Team.B
  else none

/-- The other team (`teamKey === 'A' ? 'B' : 'A'`, gameService.js:410). -/
def Team.opp : Team → Team
  | .A => .B
  | .B => .A

/-! ## Shot rule evaluator — `src/services/challengeRules.js` -/

/-- The shot object checked by the rule evaluator (challengeRules.js:13-14):
`{ shotType, zone?, shotKey? }`.  `none` embeds an absent / falsy field. -/
structure Shot where
  shotType : Option String
  zone : Option String
  shotKey : Option String
deriving DecidableEq, Repr

/-- A raw challenge `shotRule` before normalisation (challengeRules.js:4-11).
`mode` and `validation` are free-form strings exactly as stored; `normRule`
collapses them to their defaults.  The JS `requireRange !== false` /
`!!requireZone` coercions of possibly-missing fields are embedded by taking
the already-coerced booleans. -/
structure RawRule where
  mode : String
  items : List String
  validation : String
  requireRange : Bool
  requireZone : Bool
deriving DecidableEq, Repr

/-- Normalised rule mode. -/
inductive RuleMode where
  | allow
  | deny
deriving DecidableEq, Repr

/-- Normalised rule validation level. -/
inductive RuleValidation where
  | vnone
  | vsoft
  | vstrict
deriving DecidableEq, Repr

/-- Normalised rule (output of `normRule`, challengeRules.js:26-32). -/
structure NormRule where
  mode : RuleMode
  items : List String
  validation : RuleValidation
  requireRange : Bool
  requireZone : Bool
deriving DecidableEq, Repr

/-- `normRule` (challengeRules.js:26-32): anything other than `'deny'` is
`allow`; anything other than `'strict'`/`'none'` is `soft`. -/
def normRule (r : RawRule) : NormRule where
  mode := if r.mode = "deny" then .deny else .allow
  items := r.items
  validation :=
    if r.validation = "strict" then .vstrict
    else if r.validation = "none" then .vnone
    else .vsoft
  requireRange := r.requireRange
  requireZone := r.requireZone

/-- JS string interpolation of a possibly-undefined value
(`` `${shot.shotType}_${shot.zone}` ``, challengeRules.js:46). -/
def jsShow : Option String → String
  | none => "undefined"
  | some s => s

/-- `matchOne` (challengeRules.js:40-47): wildcard and exact pattern match.
An exact `range_zone` pattern never matches a shot without a zone. -/
def matchOne (pattern : String) (shot : Shot) : Bool :=
  if pattern = "gamechanger" then shot.shotType = some "gamechanger"
  else if pattern = "mid_*" then shot.shotType = some "mid"
  else if pattern = "long_*" then shot.shotType = some "long"
  else
    match shot.zone with
    | none => false
    | some z => jsShow shot.shotType ++ "_" ++ z = pattern

/-- Result record `{ ok, reason, matched }` of `shotMatchesRule`. -/
structure RuleResult where
  ok : Bool
  reason : Option String
  matched : Option Bool
deriving DecidableEq, Repr

/-- `WILDS` (challengeRules.js:24) together with the redundant
`it !== 'gamechanger'` conjunct: an item *needs an exact zone* iff it is not
one of the three wildcard/literal patterns (challengeRules.js:66). -/
def needsExactZone (items : List String) : Bool :=
  items.any fun it => !(it = "mid_*" || it = "long_*" || it = "gamechanger")

/-- `shotMatchesRule` (challengeRules.js:49-108), the full evaluator:
early allow on `validation === 'none'` or empty items; range guard;
degrade-to-wildcard when an exact-zone item is configured but the shot's zone
is unknown; otherwise allow/deny set membership with soft/strict handling. -/
def shotMatchesRule (shot : Shot) (rawRule : RawRule)
    (degradeWhenZoneUnknown : Bool := true) : RuleResult :=
  let rule := normRule rawRule
  if rule.validation = .vnone ∨ rule.items.length = 0 then
    { ok := true, reason := none, matched := none }
  else if rule.requireRange ∧ shot.shotType = none then
    if rule.validation = .vstrict then
      { ok := false, reason := some "missing_range", matched := some false }
    else
      { ok := true, reason := some "missing_range_soft", matched := some false }
  else
    let zoneUnknown := shot.zone = none ∧ shot.shotType ≠ some "gamechanger"
    if needsExactZone rule.items ∧ zoneUnknown then
      if degradeWhenZoneUnknown then
        let assumed : Shot := { shotType := shot.shotType, zone := none, shotKey := none }
        let matchedWildcard := rule.items.any fun it => matchOne it assumed
        if matchedWildcard then
          { ok := true, reason := some "zone_unknown_but_range_ok", matched := some true }
        else if rule.validation = .vstrict then
          { ok := false, reason := some "zone_required_but_unknown", matched := some false }
        else
          { ok := true, reason := some "zone_required_but_unknown_soft", matched := some false }
      else if rule.validation = .vstrict then
        { ok := false, reason := some "zone_required_but_unknown", matched := some false }
      else
        { ok := true, reason := some "zone_required_but_unknown_soft", matched := some false }
    else
      let anyMatch := rule.items.any fun it => matchOne it shot
      if rule.mode = .allow then
        if anyMatch then { ok := true, reason := none, matched := some true }
        else if rule.validation = .vstrict then
          { ok := false, reason := some "not_in_allowlist", matched := some false }
        else
          { ok := true, reason := some "not_in_allowlist_soft", matched := some false }
      else
        if anyMatch then
          if rule.validation = .vstrict then
            { ok := false, reason := some "in_denylist", matched := some false }
          else
            { ok := true, reason := some "in_denylist_soft", matched := some false }
        else
          { ok := true, reason := none, matched := some true }

/-! ## Scoring engine — `src/services/gameService.js` -/

/-- Result of `getCurrentChallengeMeta` (gameService.js:259-277): the active
challenge's target, win points, and optional shot rule.  The source reads it
from the `challenges/{id}` document (or the freestyle config) inside the
transaction; here it is an environment parameter. -/
structure ChallengeMeta where
  target : Int
  pointsForWin : Int
  shotRule : Option RawRule
deriving DecidableEq, Repr

/-- The `params` argument of `logShot` (gameService.js:283-298), restricted to
the fields the transaction logic reads.  `source` is `'manual' | 'auto' |
'review' | 'review_edit'`. -/
structure ShotParams where
  playerId : String
  shotType : String
  made : Bool
  moneyball : Bool
  source : String
deriving DecidableEq, Repr

/-- `willCountMoneyball` (gameService.js:342). -/
def willCountMoneyball (p : ShotParams) : Bool :=
  !isBonusType p.shotType && p.moneyball && (p.shotType = "mid" || p.shotType = "long")

/-- `willUseGC` (gameService.js:346). -/
def willUseGC (p : ShotParams) : Bool :=
  !isBonusType p.shotType && p.shotType = "gamechanger"

/-- The validation phase of the `logShot` transaction (gameService.js:305-379),
in source order; a thrown error aborts the transaction.  On success it returns
the attempting player's team key.

In the rule-check branch the source builds `attemptMeta` from
`arguments[1]?.zone` / `arguments[1]?.shotKey` (gameService.js:370-371);
`logShot` is an arrow function, which does not bind `arguments`, so that
expression never sees the caller's params (under the app's CommonJS module
wrapper it reads the wrapper's arguments and yields `undefined`) — embedded as
`none` for both fields. -/
def logShotChecks (meta : ChallengeMeta) (uid : String) (gameDoc : Option Game)
    (p : ShotParams) : Except String Team :=
  match gameDoc with
  | none => .error "Game not found"
  | some game =>
    if p.source ≠ "manual" ∧
        ¬(game.status = "live" ∧ game.clockRunning = true ∧ game.paused ≠ true) then
      .error "Clock not running (or game paused). Auto ingest blocked."
    else if game.challengeWon ≠ none then
      .error "Challenge completed. Tap Next Challenge to continue."
    else
      match playerTeamKey game p.playerId with
      | none => .error "Player not in game"
      | some teamKey =>
        if uid ≠ game.rolesMain ∧ game.trackerLocks.get teamKey ≠ some uid then
          .error "You are not the assigned tracker for this team"
        else if isBonusType p.shotType ∧ game.bonusActive ≠ true then
          .error "Bonus round is not active."
        else if willCountMoneyball p ∧ (game.specials.get teamKey).moneyUsed = true then
          .error "Team has already used Moneyball this challenge."
        else if willUseGC p ∧ (game.specials.get teamKey).gcUsed = true then
          .error "Team has already used Gamechanger this challenge."
        else if ¬isBonusType p.shotType then
          match meta.shotRule with
          | some rule =>
            let check := shotMatchesRule
              { shotType := some p.shotType, zone := none, shotKey := none } rule
            if check.ok = false ∧ rule.validation = "strict" then
              .error "That shot is not allowed by the current challenge."
            else .ok teamKey
          | none => .ok teamKey
        else .ok teamKey

/-- The attempt log written at gameService.js:436-451.  Note that the stored
`moneyball` field is the raw caller flag (`!!moneyball`), not
`willCountMoneyball`. -/
def mkAttemptLog (p : ShotParams) (teamKey : Team) (challengeIndex : Int)
    (id : Nat) : LogEntry where
  id := id
  type := ""
  playerId := p.playerId
  shotType := p.shotType
  made := p.made
  moneyball := p.moneyball
  team := some teamKey
  challengeIndex := challengeIndex

/-- The win log written at gameService.js:455-464 (its `pointsForWin`,
`shutout` and `tag` payload fields are read by nothing embedded here and are
omitted; the `type` discriminator, team and challenge index — the fields the
undo fallback queries on — are kept). -/
def mkWinLog (byPlayerId : String) (teamKey : Team) (challengeIndex : Int)
    (id : Nat) : LogEntry where
  id := id
  type := "challenge_win"
  playerId := byPlayerId
  shotType := ""
  made := false
  moneyball := false
  team := some teamKey
  challengeIndex := challengeIndex

/-- The mutation phase of the `logShot` transaction (gameService.js:383-465):
score delta, specialty-flag consumption, win detection with shutout doubling,
attempt log, win log.  `nextId` is the fresh document id for the attempt log;
`nextId + 1` is used for the win log when a win occurs.  All `curMatch` /
`curChal` reads are against the transaction's snapshot `g` (the source's
closures read the pre-update `game` object). -/
def logShotApply (meta : ChallengeMeta) (g : Game) (logs : List LogEntry)
    (nextId : Nat) (p : ShotParams) (teamKey : Team) : Game × List LogEntry :=
  let bonusShot := isBonusType p.shotType
  let pts := shotPoints p.shotType p.made (willCountMoneyball p)
  let target := if bonusShot then 0 else meta.target
  let pfw := if bonusShot then 0 else meta.pointsForWin
  let g1 :=
    if p.made then
      if bonusShot then
        { g with matchScore := g.matchScore.set teamKey (g.matchScore.get teamKey + pts) }
      else
        { g with challengeScore := g.challengeScore.set teamKey (g.challengeScore.get teamKey + pts) }
    else g
  let g2 :=
    if willCountMoneyball p then
      { g1 with specials := g1.specials.set teamKey { g1.specials.get teamKey with moneyUsed := true } }
    else g1
  let g3 :=
    if willUseGC p then
      { g2 with specials := g2.specials.set teamKey { g2.specials.get teamKey with gcUsed := true } }
    else g2
  let newChallengeScore := g.challengeScore.get teamKey + pts
  let attempt := mkAttemptLog p teamKey g.currentChallengeIndex nextId
  if p.made = true ∧ bonusShot = false ∧ target > 0 ∧ newChallengeScore ≥ target then
    let opponentHadZero := g.challengeScore.get teamKey.opp = 0
    let pfwAward := pfw * (if opponentHadZero then 2 else 1)
    -- `updates[matchScore...] ?? curMatch(teamKey)`: on this non-bonus path the
    -- match cell was not previously written, so the fallback reads the snapshot
    let g4 := { g3 with matchScore := g3.matchScore.set teamKey (g.matchScore.get teamKey + pfwAward) }
    let won : ChallengeWon :=
      { team := teamKey
        atIndex := g.currentChallengeIndex
        scoreA := if teamKey = Team.A then newChallengeScore else g.challengeScore.get Team.A
        scoreB := if teamKey = Team.B then newChallengeScore else g.challengeScore.get Team.B
        pointsForWin := pfw
        shutout := opponentHadZero
        winLogId := some (nextId + 1) }
    ({ g4 with challengeWon := some won },
      logs ++ [attempt, mkWinLog p.playerId teamKey g.currentChallengeIndex (nextId + 1)])
  else
    (g3, logs ++ [attempt])

/-- `logShot` (gameService.js:282-467) exactly as written.  Every execution
that survives the validation phase reaches the attempt-log write, whose
`ruleCheck: { ok: !!ruleMeta.ok, ... }` (gameService.js:450) evaluates the
identifier `ruleMeta`, which is bound nowhere in the function or module — a
`ReferenceError` thrown inside the transaction body, aborting the transaction
before any buffered write commits.  Hence no call ever returns normally and no
state is ever mutated. -/
def logShot (meta : ChallengeMeta) (uid : String) (gameDoc : Option Game)
    (p : ShotParams) : Except String Unit :=
  match logShotChecks meta uid gameDoc p with
  | .error e => .error e
  | .ok _ => .error "ReferenceError: ruleMeta is not defined"

/-- `logShot` with the single undefined-binding slip of gameService.js:450
repaired: the `ruleCheck` audit field takes the value of the rule check
computed at gameService.js:373 (a field our `LogEntry` does not store, so the
repair does not change the log payload embedded here).  This is the transaction
the rest of the module — and the spec — is written against; the scoring claims
are analysed over it, while `logShot` above keeps the source behaviour. -/
def logShotFixed (meta : ChallengeMeta) (uid : String) (g : Game)
    (logs : List LogEntry) (nextId : Nat) (p : ShotParams) :
    Except String (Game × List LogEntry) :=
  match logShotChecks meta uid (some g) p with
  | .error e => .error e
  | .ok teamKey => .ok (logShotApply meta g logs nextId p teamKey)

/-- The per-log step of `recomputeSpecialsForChallenge`
(gameService.js:484-490): a log with a team key marks `moneyUsed` when its
`moneyball` field is truthy — *whatever its shot type* — and `gcUsed` when its
`shotType` is `'gamechanger'`. -/
def specialsStep (flags : Specials) (l : LogEntry) : Specials :=
  match l.team with
  | some t =>
    let f := flags.get t
    let f1 := if l.moneyball then { f with moneyUsed := true } else f
    let f2 := if l.shotType = "gamechanger" then { f1 with gcUsed := true } else f1
    flags.set t f2
  | none => flags

/-- `recomputeSpecialsForChallenge` (gameService.js:473-495): rebuild both
teams' specialty flags from the logs of one challenge index — the first 400
matching logs in ascending timestamp order (our lists are kept in that
order). -/
def recomputeSpecialsForChallenge (logs : List LogEntry) (challengeIndex : Int) :
    Specials :=
  let window := (logs.filter fun l => l.challengeIndex = challengeIndex).take 400
  window.foldl specialsStep ⟨⟨false, false⟩, ⟨false, false⟩⟩

/-- Remove the newest (`orderBy ts desc, limit 1`) `challenge_win` log of the
given team and challenge index, if any — the best-effort fallback cleanup of
gameService.js:557-575, used only when `challengeWon.winLogId` is absent. -/
def removeLastWinLog (logs : List LogEntry) (team : Option Team)
    (challengeIndex : Int) : List LogEntry :=
  let matching := logs.filter fun l =>
    l.type = "challenge_win" ∧ l.team = team ∧ l.challengeIndex = challengeIndex
  match matching.getLast? with
  | none => logs
  | some w => logs.filter fun l => l.id ≠ w.id

/-- `deleteLogAndReverse` (gameService.js:497-580): atomically subtract the
shot's points from the bucket it contributed to (clamped at 0), revert a
matching win (possibly doubled award, `challengeWon := null`, linked win log
deleted — or the best-effort fallback when the link is missing), delete the
attempt log, then overwrite `specials` with the recompute over the remaining
logs of the attempt's challenge index.

The caller passes the `log` object; a `log.team` outside `{A, B}` makes the
JS write to a nonexistent `…Score.<team>` key, leaving both real cells
unchanged — embedded as a no-op.  The `?? -1` / `?? -2` index defaults of
gameService.js:534 are unreachable here because `LogEntry.challengeIndex` is
total. -/
def deleteLogAndReverse (g : Game) (logs : List LogEntry) (log : LogEntry) :
    Game × List LogEntry :=
  let pts := shotPoints log.shotType log.made log.moneyball
  let g1 :=
    if log.made then
      match log.team with
      | some t =>
        if isBonusType log.shotType then
          { g with matchScore := g.matchScore.set t (max 0 (g.matchScore.get t - pts)) }
        else
          { g with challengeScore := g.challengeScore.set t (max 0 (g.challengeScore.get t - pts)) }
      | none => g
    else g
  let step : Game × List LogEntry × Bool :=
    match g.challengeWon with
    | some cw =>
      if log.made = true ∧ isBonusType log.shotType = false ∧
          some cw.team = log.team ∧ cw.atIndex = log.challengeIndex then
        let pfwApplied := cw.pointsForWin * (if cw.shutout then 2 else 1)
        -- `updates[matchScore...] ?? curMatch(team)`: the win path excludes
        -- bonus shots, so the match cell was not written above and the
        -- fallback reads the snapshot value
        let g2 := { g1 with
          matchScore := g1.matchScore.set cw.team (max 0 (g.matchScore.get cw.team - pfwApplied))
          challengeWon := none }
        match cw.winLogId with
        | some wid => (g2, logs.filter fun l => l.id ≠ wid, false)
        | none => (g2, logs, true)
      else (g1, logs, false)
    | none => (g1, logs, false)
  let g3 := step.1
  let logs1 := step.2.1.filter fun l => l.id ≠ log.id
  let logs2 :=
    if step.2.2 then removeLastWinLog logs1 log.team log.challengeIndex else logs1
  ({ g3 with specials := recomputeSpecialsForChallenge logs2 log.challengeIndex }, logs2)

/-- One call against the scoring engine, for sequences of operations:
a `recordShot` (via the repaired transaction `logShotFixed`; a rejected
attempt leaves the state unchanged — and the unrepaired `logShot` never
changes state at all) or a `reverseShot`. -/
inductive GameOp where
  | shot (meta : ChallengeMeta) (uid : String) (nextId : Nat) (p : ShotParams)
  | undo (log : LogEntry)
deriving Repr

/-- Apply one operation to a game-plus-logs state. -/
def applyOp (s : Game × List LogEntry) : GameOp → Game × List LogEntry
  | .shot meta uid nextId p =>
    match logShotFixed meta uid s.1 s.2 nextId p with
    | .ok s' => s'
    | .error _ => s
  | .undo log => deleteLogAndReverse s.1 s.2 log

/-- Both cells of a score map are non-negative. -/
def Scores.Nonneg (s : Scores) : Prop := 0 ≤ s.A ∧ 0 ≤ s.B

instance (s : Scores) : Decidable s.Nonneg := by
  unfold Scores.Nonneg; infer_instance

/-- All four score cells are non-negative. -/
def scoresNonneg (g : Game) : Prop :=
  g.challengeScore.Nonneg ∧ g.matchScore.Nonneg

instance (g : Game) : Decidable (scoresNonneg g) := by
  unfold scoresNonneg; infer_instance

/-- A hypothesis on a recorded shot's environment: its challenge win points
are non-negative.  This is *not* a repo-wide invariant: `createChallenge`
(challengeService.js) and `setFreestyleParams` (gameService.js:660-668) clamp
with `Math.max(0, …)`, but `createGame` stores the freestyle `pointsForWin`
unclamped (gameService.js:186) and `updateChallenge` passes the field through
unclamped — negative win points are reachable, and they break score
non-negativity (see the claim C3 counterexample). -/
def opWellFormed : GameOp → Prop
  | .shot meta _ _ _ => 0 ≤ meta.pointsForWin
  | .undo _ => True

instance (op : GameOp) : Decidable (opWellFormed op) := by
  unfold opWellFormed; cases op <;> infer_instance

/-- The write-time gamechanger-consumption rule applied to a stored log
(gameService.js:346). -/
def countedGC (l : LogEntry) : Bool :=
  !isBonusType l.shotType && l.shotType = "gamechanger"

/-! ## Auto-ingest coordinator — `src/services/autoTrackingService.js` -/

/-- `clamp01` (autoTrackingService.js:186).  Confidences and thresholds are
embedded as `ℚ`; `Math.max`/`Math.min` and comparisons are order-exact.  The
`Number(x) || 0` coercion of non-numeric input is outside the embedded domain. -/
def clamp01 (x : ℚ) : ℚ := max 0 (min 1 x)

/-- The `autoMode` config block on the game document
(autoTrackingService.js:62-68); `updatedAt`/`updatedBy` audit fields omitted. -/
structure AutoModeCfg where
  enabled : Bool
  ingestThreshold : ℚ
  reviewThreshold : ℚ
  gateByClock : Bool
deriving DecidableEq, Repr

/-- `setAutoMode` (autoTrackingService.js:77-101): clamp both thresholds to
[0,1], reject when the clamped review threshold exceeds the clamped ingest
threshold, otherwise persist the config. -/
def setAutoMode (enabled : Bool) (ingestThreshold : ℚ := 0.85)
    (reviewThreshold : ℚ := 0.65) (gateByClock : Bool := true) :
    Except String AutoModeCfg :=
  let i := clamp01 ingestThreshold
  let r := clamp01 reviewThreshold
  if r > i then .error "reviewThreshold must be <= ingestThreshold"
  else .ok { enabled := enabled, ingestThreshold := i, reviewThreshold := r,
             gateByClock := gateByClock }

/-- The game-document view read by the coordinator: lifecycle/clock/pause
state plus the optional `autoMode` block. -/
structure AGame where
  status : String
  clockRunning : Bool
  paused : Bool
  autoMode : Option AutoModeCfg
deriving DecidableEq, Repr

/-- The clock gate (autoTrackingService.js:238-239):
`status === 'live' && clockRunning === true && paused !== true`. -/
def aClockOk (g : AGame) : Bool :=
  g.status = "live" && g.clockRunning && !g.paused

/-- An `auto_events` document as read by `safeProcessEvent`; a `none` field
embeds a missing or wrongly-typed value (the shape check tests
`typeof` on each). -/
structure AutoEvent where
  type : String
  playerId : Option String
  shotType : Option String
  made : Option Bool
  confidence : Option ℚ
deriving DecidableEq, Repr

/-- `basicOk` (autoTrackingService.js:251-256). -/
def basicOk (ev : AutoEvent) : Bool :=
  ev.type = "shot" && ev.playerId.isSome && ev.shotType.isSome &&
    ev.made.isSome && ev.confidence.isSome

/-- Outcome of one claimed event's decision procedure
(autoTrackingService.js:218-291): final event status, with `queued` carrying
the reason of the single review-queue item pushed alongside it, and
`ingestAttempt` marking the branch that invokes `ingestShot` (whose own
success/fallback is downstream of this decision). -/
inductive AutoDecision where
  | disabled
  | blocked
  | queued (reason : String)
  | ingestAttempt
  | ignored
deriving DecidableEq, Repr

/-- The decision procedure of `safeProcessEvent` after a successful claim
(autoTrackingService.js:218-291).  `gameDoc` is the fresh snapshot read at
line 220 (used for the `autoMode` gate and the thresholds); `latestGame` is
the coordinator's cached listener value, used — with the snapshot as fallback
(`latestGame || game`, line 237) — for the clock gate. -/
def safeProcessDecision (gameDoc : AGame) (latestGame : Option AGame)
    (ev : AutoEvent) : AutoDecision :=
  let auto := gameDoc.autoMode.getD
    { enabled := false, ingestThreshold := 0.85, reviewThreshold := 0.65,
      gateByClock := true }
  if auto.enabled = false then .disabled
  else if auto.gateByClock = true ∧ aClockOk (latestGame.getD gameDoc) = false then
    .blocked
  else if basicOk ev = false then .queued "bad_shape"
  else
    let conf := clamp01 (ev.confidence.getD 0)
    let ingestTh := clamp01 ((gameDoc.autoMode.map (·.ingestThreshold)).getD 0.85)
    let reviewTh := clamp01 ((gameDoc.autoMode.map (·.reviewThreshold)).getD 0.65)
    if conf ≥ ingestTh then .ingestAttempt
    else if conf ≥ reviewTh then .queued "low_confidence"
    else .ignored

/-! ## Event fusion — `src/services/coordinatorFuser.js` -/

/-- One raw detection signal inside a time-bucketed cluster, restricted to the
field the fused outcome computation reads (`kind`:
`'release' | 'rim' | 'net' | …`). -/
structure Signal where
  kind : String
deriving DecidableEq, Repr

/-- A cluster yields a fused proposal iff it contains a release signal
(`if (!shooters.length) continue`, coordinatorFuser.js:20-21). -/
def hasReleaseSignal (group : List Signal) : Bool :=
  group.any fun s => s.kind = "release"

/-- The fused `made` outcome (coordinatorFuser.js:19,40):
`rim = group.find(kind === 'net' || kind === 'rim')` and
`made = rim ? rim.kind === 'net' : !!group.find(kind === 'net')`. -/
def clusterMade (group : List Signal) : Bool :=
  match group.find? (fun s => s.kind = "net" || s.kind = "rim") with
  | some r => r.kind = "net"
  | none => group.any fun s => s.kind = "net"

/-- Convenience for stating rejection theorems: an `Except` is an error. -/
def isErr {ε α : Type} : Except ε α → Bool
  | .error _ => true
  | .ok _ => false

instance {ε α : Type} [DecidableEq ε] [DecidableEq α] : DecidableEq (Except ε α)
  | .error a, .error b =>
    if h : a = b then .isTrue (by rw [h])
    else .isFalse (by intro hc; cases hc; exact h rfl)
  | .error _, .ok _ => .isFalse (by intro hc; cases hc)
  | .ok _, .error _ => .isFalse (by intro hc; cases hc)
  | .ok a, .ok b =>
    if h : a = b then .isTrue (by rw [h])
    else .isFalse (by intro hc; cases hc; exact h rfl)

/-- The write-time specialty-consumption rule for moneyball applied to a
stored log: `logShot` consumes a team's moneyball exactly for a
moneyball-flagged, non-bonus, mid/long attempt (gameService.js:342) — whereas
`recomputeSpecialsForChallenge` counts *any* log with a truthy `moneyball`
field. -/
def countedMoneyball (l : LogEntry) : Bool :=
  l.moneyball && !isBonusType l.shotType && (l.shotType = "mid" || l.shotType = "long")

/-! ## Concrete fixtures for witnesses and counterexamples -/

/-- Challenge meta with no target and no rule (freestyle defaults). -/
def baseMeta : ChallengeMeta := { target := 0, pointsForWin := 0, shotRule := none }

/-- Challenge meta: target 5, 2 match points for the win, no shot rule. -/
def metaWin : ChallengeMeta := { target := 5, pointsForWin := 2, shotRule := none }

/-- A clean live game: player `p1` on team A, `p2` on team B, main operator
`op`, all scores zero, no specialty used. -/
def gLive : Game where
  teamAIds := ["p1"]
  teamBIds := ["p2"]
  currentChallengeIndex := 0
  matchScore := ⟨0, 0⟩
  challengeScore := ⟨0, 0⟩
  challengeWon := none
  specials := ⟨⟨false, false⟩, ⟨false, false⟩⟩
  bonusActive := false
  status := "live"
  clockRunning := true
  paused := false
  rolesMain := "op"
  trackerLocks := ⟨none, none⟩

/-- A plain made mid-range shot by `p1`, entered manually. -/
def pMid : ShotParams :=
  { playerId := "p1", shotType := "mid", made := true, moneyball := false,
    source := "manual" }

/-- A missed gamechanger attempt by `p1` carrying a (write-time-irrelevant)
`moneyball: true` flag — accepted by `logShot`, which only gates moneyball on
mid/long shots, yet counted as moneyball by the undo-time recompute. -/
def pGcMoney : ShotParams :=
  { playerId := "p1", shotType := "gamechanger", made := false, moneyball := true,
    source := "manual" }

/-- Pre-state for the undo counterexample: `gLive` after `pGcMoney` was
recorded (log id 0): team A's `gcUsed` is consumed, `moneyUsed` is not. -/
def gAfterGc : Game :=
  { gLive with specials := ⟨⟨false, true⟩, ⟨false, false⟩⟩ }

/-- The single existing log of `gAfterGc`. -/
def logsAfterGc : List LogEntry := [mkAttemptLog pGcMoney Team.A 0 0]

/-- `gAfterGc` after also recording the plain made mid shot `pMid` (log id 1). -/
def gAfterGcMid : Game :=
  { gAfterGc with challengeScore := ⟨1, 0⟩ }

/-- The log list after recording `pMid` on top of `logsAfterGc`. -/
def logsAfterGcMid : List LogEntry :=
  logsAfterGc ++ [mkAttemptLog pMid Team.A 0 1]

/-- `gLive` four made mid shots into a target-5 challenge. -/
def gFourUp : Game := { gLive with challengeScore := ⟨4, 0⟩ }

/-- Deny-mode strict rule with an exact-zone item and the `mid_*` wildcard:
a zoneless mid shot *hits* the denylist wildcard, yet the degrade path
reports it as a positive match. -/
def denyStrictRule : RawRule :=
  { mode := "deny", items := ["mid_corner", "mid_*"], validation := "strict",
    requireRange := true, requireZone := false }

/-- Allow-mode soft variant of the same item list. -/
def allowSoftRule : RawRule :=
  { mode := "allow", items := ["mid_corner", "mid_*"], validation := "soft",
    requireRange := true, requireZone := false }

/-- A mid-range shot with unknown zone. -/
def midNoZone : Shot := { shotType := some "mid", zone := none, shotKey := none }

/-- Coordinator game view: live, clock running, auto mode on with the default
thresholds. -/
def aGameOn : AGame :=
  { status := "live", clockRunning := true, paused := false,
    autoMode := some { enabled := true, ingestThreshold := 0.85,
                       reviewThreshold := 0.65, gateByClock := true } }

/-- A well-shaped auto event with the given confidence. -/
def mkEvent (c : ℚ) : AutoEvent :=
  { type := "shot", playerId := some "p1", shotType := some "mid",
    made := some true, confidence := some c }

/-- A detection cluster whose *first* net-or-rim signal is a rim signal, with
a net signal and a release signal behind it. -/
def rimFirstGroup : List Signal := [⟨"rim"⟩, ⟨"net"⟩, ⟨"release"⟩]

/-- `gLive` after `endGame` (gameService.js:612-613) set `status := 'ended'`. -/
def gEnded : Game := { gLive with status := "ended" }

/-- `gLive` with team A's moneyball already consumed. -/
def gMoneyUsed : Game :=
  { gLive with specials := ⟨⟨true, false⟩, ⟨false, false⟩⟩ }

/-- A made moneyball mid shot by `p1`. -/
def pMidMoney : ShotParams :=
  { playerId := "p1", shotType := "mid", made := true, moneyball := true,
    source := "manual" }

/-- Operation sequence for the specialty-recompute counterexample: record the
moneyball-flagged gamechanger, record a plain mid make, then undo the mid
make — the trailing recompute then marks team A's moneyball as used although
no attempt ever consumed it under the write-time rule. -/
def divergenceOps : List GameOp :=
  [.shot baseMeta "op" 1 pGcMoney, .shot baseMeta "op" 2 pMid,
   .undo (mkAttemptLog pMid Team.A 0 2)]

/-- The state reached by `divergenceOps` from a clean game. -/
def divergenceFinal : Game × List LogEntry :=
  divergenceOps.foldl applyOp (gLive, [])

/-- A challenge meta with a *negative* win award — storable through
`createGame`'s unclamped freestyle path (gameService.js:186) or
`updateChallenge`'s unclamped pass-through. -/
def metaNegWin : ChallengeMeta := { target := 5, pointsForWin := -3, shotRule := none }

/-- A made gamechanger shot by `p1` (worth 5 points, reaching target 5). -/
def pGcMade : ShotParams :=
  { playerId := "p1", shotType := "gamechanger", made := true, moneyball := false,
    source := "manual" }

/-- Operation sequence for the non-negativity witness: a winning shot followed
by undo of an unrelated (never-recorded) log and undo of the winning shot. -/
def nonnegOps : List GameOp :=
  [.shot metaWin "op" 1 pMid,
   .undo { id := 9, type := "", playerId := "p2", shotType := "long",
           made := true, moneyball := false, team := some Team.B,
           challengeIndex := 0 },
   .undo (mkAttemptLog pMid Team.A 0 1)]

/-- A sample pending win record. -/
def wonRecord : ChallengeWon :=
  { team := Team.A, atIndex := 0, scoreA := 5, scoreB := 0,
    pointsForWin := 2, shutout := true, winLogId := some 7 }

/-- `gLive` with a pending `challengeWon` record. -/
def gWon : Game := { gLive with challengeWon := some wonRecord }

/-! ## Theorems -/

/-- Every call of `logShot` returns an error: either one of the validation
checks throws, or the attempt-log write's `ruleMeta.ok` read does. -/
theorem logShot_never_commits (meta : ChallengeMeta) (uid : String)
    (gameDoc : Option Game) (p : ShotParams) :
    isErr (logShot meta uid gameDoc p) = true := by
  unfold logShot
  cases logShotChecks meta uid gameDoc p <;> rfl

/-- Claim C1: for every game state and every attempt input — whatever its
source (`manual`, `auto`, `review`, `review_edit`) — `logShot` raises an
error, so the transaction aborts before any buffered write commits and the
game document, scores, specialty flags and log subcollection are unchanged
(in this embedding an `Except.error` result carries no state by construction).
Every path surviving the validation phase reaches the attempt-log write at
gameService.js:450, which reads `ruleMeta.ok` although no binding named
`ruleMeta` exists in the function or module. -/
theorem logShot_always_raises (meta : ChallengeMeta) (uid : String)
    (gameDoc : Option Game) (p : ShotParams) :
    isErr (logShot meta uid gameDoc p) = true :=
  logShot_never_commits meta uid gameDoc p

/-- Claim C5: `logShot` rejects with an error — committing nothing — whenever
the game document is missing, whenever the game's status is `'ended'`, or
whenever `challengeWon` is already set; in particular no attempt is ever
recorded against an ended game.  (The missing-document and `challengeWon`
rejections are dedicated checks at gameService.js:306 and 318; an ended game
fails the clock gate for auto sources at gameService.js:310-315, while for
manual sources the rejection is the unconditional `ruleMeta` throw of
claim C1 — there is no dedicated status check on the manual path.) -/
theorem recordShot_rejects_missing_ended_or_completed (meta : ChallengeMeta)
    (uid : String) (g : Game) (p : ShotParams) :
    isErr (logShot meta uid none p) = true ∧
    (g.status = "ended" → isErr (logShot meta uid (some g) p) = true) ∧
    (g.challengeWon ≠ none → isErr (logShot meta uid (some g) p) = true) :=
  ⟨logShot_never_commits meta uid none p,
   fun _ => logShot_never_commits meta uid (some g) p,
   fun _ => logShot_never_commits meta uid (some g) p⟩

/-- Witness for claim C5 at concrete inputs: an absent document, the ended
game `gEnded`, and the already-won game `gWon` are all rejected. -/
theorem recordShot_rejects_witness :
    gEnded.status = "ended" ∧ gWon.challengeWon ≠ none ∧
    isErr (logShot baseMeta "op" none pMid) = true ∧
    isErr (logShot baseMeta "op" (some gEnded) pMid) = true ∧
    isErr (logShot baseMeta "op" (some gWon) pMid) = true :=
  ⟨rfl, by decide,
   (recordShot_rejects_missing_ended_or_completed baseMeta "op" gEnded pMid).1,
   (recordShot_rejects_missing_ended_or_completed baseMeta "op" gEnded pMid).2.1 rfl,
   (recordShot_rejects_missing_ended_or_completed baseMeta "op" gWon pMid).2.2 (by decide)⟩

/-- Counterexample to claim C9 as stated: the cluster
`[rim, net, release]` yields a proposal and contains a net-kind signal, yet
the fused `made` flag is `false` — `made` is computed from the *first*
net-or-rim signal, which here is the rim signal. -/
theorem fused_made_not_net_presence_cex :
    ¬ (hasReleaseSignal rimFirstGroup = true →
        (clusterMade rimFirstGroup = true ↔
          (rimFirstGroup.any fun s => s.kind = "net") = true)) := by
  decide

/-- The fused outcome is `true` exactly when the cluster has a net signal
that no rim signal precedes. -/
theorem clusterMade_iff_first_net (group : List Signal) :
    clusterMade group = true ↔
      ∃ pre s post, group = pre ++ s :: post ∧ s.kind = "net" ∧
        ∀ x ∈ pre, x.kind ≠ "net" ∧ x.kind ≠ "rim" := by
  induction group with
  | nil =>
    constructor
    · intro h
      exact absurd h (by decide)
    · rintro ⟨pre, s, post, h, -, -⟩
      simp at h
  | cons a l ih =>
    by_cases hnet : a.kind = "net"
    · constructor
      · intro _
        exact ⟨[], a, l, rfl, hnet, by simp⟩
      · intro _
        unfold clusterMade
        rw [List.find?_cons_of_pos _ (by simp [hnet])]
        simpa using hnet
    · by_cases hrim : a.kind = "rim"
      · constructor
        · intro h
          exfalso
          unfold clusterMade at h
          rw [List.find?_cons_of_pos _ (by simp [hrim])] at h
          simp at h
          exact hnet h
        · rintro ⟨pre, s, post, heq, hs, hpre⟩
          exfalso
          cases pre with
          | nil =>
            injection heq with h1 h2
            subst h1
            exact hnet hs
          | cons b pre' =>
            injection heq with h1 h2
            subst h1
            exact (hpre a (by simp)).2 hrim
      · have hstep : clusterMade (a :: l) = clusterMade l := by
          unfold clusterMade
          rw [List.find?_cons_of_neg _ (by simp [hnet, hrim])]
          cases hfind : l.find? fun s => s.kind = "net" || s.kind = "rim" with
          | none => simp [hnet]
          | some r => rfl
        rw [hstep, ih]
        constructor
        · rintro ⟨pre, s, post, heq, hs, hpre⟩
          refine ⟨a :: pre, s, post, by rw [heq]; rfl, hs, ?_⟩
          intro x hx
          rcases List.mem_cons.mp hx with h | h
          · subst h
            exact ⟨hnet, hrim⟩
          · exact hpre x h
        · rintro ⟨pre, s, post, heq, hs, hpre⟩
          cases pre with
          | nil =>
            injection heq with h1 h2
            subst h1
            exact absurd hs hnet
          | cons b pre' =>
            injection heq with h1 h2
            subst h1
            exact ⟨pre', s, post, h2, hs, fun x hx => hpre x (by simp [hx])⟩

/-- Claim C9, amended: for every cluster that yields a fused proposal (it
contains a release signal), the proposal's `made` flag is `true` iff the
cluster contains a net-kind signal *with no rim-kind signal anywhere before
it* — the code takes the first net-or-rim signal, so an earlier rim signal
overrides a later net signal (not mere net presence, as stated). -/
theorem fused_made_iff_unpreceded_net (group : List Signal)
    (_hrel : hasReleaseSignal group = true) :
    clusterMade group = true ↔
      ∃ pre s post, group = pre ++ s :: post ∧ s.kind = "net" ∧
        ∀ x ∈ pre, x.kind ≠ "net" ∧ x.kind ≠ "rim" :=
  clusterMade_iff_first_net group

/-- Witness for claim C9's amended theorem: in the cluster
`[release, net]` the net signal is unpreceded by any rim signal, so the fused
outcome is a make. -/
theorem fused_made_iff_unpreceded_net_witness :
    clusterMade [⟨"release"⟩, ⟨"net"⟩] = true :=
  (fused_made_iff_unpreceded_net [⟨"release"⟩, ⟨"net"⟩] (by decide)).mpr
    ⟨[⟨"release"⟩], ⟨"net"⟩, [], rfl, rfl, by decide⟩

/-- Counterexample to claim C6 as stated: `denyStrictRule` has an exact
`range_zone` item (`mid_corner`), the shot is a zoneless mid shot, the rule is
deny-mode — so the range-only shot does *not* satisfy the rule (`mid_*` is in
the denylist) and, being strict, the claim predicts a rejection.  The code
instead returns `ok = true, matched = true`: the degrade path never consults
the rule mode. -/
theorem degrade_deny_mode_cex :
    ¬ (((shotMatchesRule midNoZone denyStrictRule true).ok = true ∧
        (shotMatchesRule midNoZone denyStrictRule true).matched = some true) ↔
       (denyStrictRule.items.any fun it => matchOne it midNoZone) = false) := by
  decide

/-- `matchOne` on a zoneless mid shot succeeds only for the `mid_*` wildcard. -/
theorem matchOne_zoneless_mid (it : String) :
    matchOne it { shotType := some "mid", zone := none, shotKey := none } = true ↔
      it = "mid_*" := by
  unfold matchOne
  split_ifs with h1 h2 h3
  · subst h1
    simp
  · subst h2
    simp
  · subst h3
    simp
  · simp [h2]

/-- `matchOne` on a zoneless long shot succeeds only for the `long_*`
wildcard. -/
theorem matchOne_zoneless_long (it : String) :
    matchOne it { shotType := some "long", zone := none, shotKey := none } = true ↔
      it = "long_*" := by
  unfold matchOne
  split_ifs with h1 h2 h3
  · subst h1
    simp
  · subst h2
    simp
  · subst h3
    simp
  · simp [h3]

/-- Claim C6, amended: for a rule with at least one exact-zone item and
`validation ≠ 'none'`, and a shot of known range (mid or long) but unknown
zone, the degrade path yields `ok = true, matched = true` exactly when the
wildcard of the shot's range is among the rule's items — *irrespective of
allow/deny mode* (as stated, the claim's deny-mode clause fails, see the
counterexample); otherwise it fails under `strict` and soft-passes under
`soft`. -/
theorem shotMatchesRule_degrade_characterization (raw : RawRule) (shot : Shot)
    (hexact : needsExactZone raw.items = true)
    (hrange : shot.shotType = some "mid" ∨ shot.shotType = some "long")
    (hzone : shot.zone = none)
    (hval : (normRule raw).validation ≠ RuleValidation.vnone) :
    shotMatchesRule shot raw true =
      if (shot.shotType = some "mid" ∧ "mid_*" ∈ raw.items) ∨
          (shot.shotType = some "long" ∧ "long_*" ∈ raw.items) then
        { ok := true, reason := some "zone_unknown_but_range_ok", matched := some true }
      else if (normRule raw).validation = RuleValidation.vstrict then
        { ok := false, reason := some "zone_required_but_unknown", matched := some false }
      else
        { ok := true, reason := some "zone_required_but_unknown_soft", matched := some false } := by
  have hitems : (normRule raw).items = raw.items := rfl
  have hnonempty : raw.items ≠ [] := by
    intro h
    rw [h] at hexact
    simp [needsExactZone] at hexact
  have hne : ¬ ((normRule raw).validation = RuleValidation.vnone ∨
      (normRule raw).items.length = 0) := by
    rintro (h | h)
    · exact hval h
    · rw [hitems, List.length_eq_zero] at h
      exact hnonempty h
  have hty : shot.shotType ≠ none := by
    rcases hrange with h | h <;> simp [h]
  have hgc : shot.shotType ≠ some "gamechanger" := by
    rcases hrange with h | h <;> simp [h]
  have hany : ((normRule raw).items.any fun it =>
      matchOne it { shotType := shot.shotType, zone := none, shotKey := none }) = true ↔
      ((shot.shotType = some "mid" ∧ "mid_*" ∈ raw.items) ∨
        (shot.shotType = some "long" ∧ "long_*" ∈ raw.items)) := by
    rw [hitems, List.any_eq_true]
    rcases hrange with h | h
    · rw [h]
      constructor
      · rintro ⟨x, hx, hm⟩
        exact Or.inl ⟨rfl, by rwa [(matchOne_zoneless_mid x).mp hm] at hx⟩
      · rintro (⟨-, hmem⟩ | ⟨hc, -⟩)
        · exact ⟨"mid_*", hmem, (matchOne_zoneless_mid "mid_*").mpr rfl⟩
        · exact absurd hc (by decide)
    · rw [h]
      constructor
      · rintro ⟨x, hx, hm⟩
        exact Or.inr ⟨rfl, by rwa [(matchOne_zoneless_long x).mp hm] at hx⟩
      · rintro (⟨hc, -⟩ | ⟨-, hmem⟩)
        · exact absurd hc (by decide)
        · exact ⟨"long_*", hmem, (matchOne_zoneless_long "long_*").mpr rfl⟩
  simp only [shotMatchesRule]
  rw [if_neg hne, if_neg (by rintro ⟨-, h⟩; exact hty h),
    if_pos ⟨hexact, hzone, hgc⟩, if_pos trivial]
  exact if_congr hany rfl rfl

/-- Witness for claim C6's amended theorem: the zoneless mid shot against the
allow-mode soft rule `["mid_corner", "mid_*"]` degrades to the `mid_*`
wildcard and passes with `matched = true`. -/
theorem shotMatchesRule_degrade_witness :
    shotMatchesRule midNoZone allowSoftRule true =
      { ok := true, reason := some "zone_unknown_but_range_ok", matched := some true } := by
  rw [shotMatchesRule_degrade_characterization allowSoftRule midNoZone (by decide)
    (Or.inl rfl) rfl (by decide)]
  decide

/-- `clamp01` is bounded below by 0. -/
theorem clamp01_nonneg (x : ℚ) : 0 ≤ clamp01 x := le_max_left 0 _

/-- `clamp01` is bounded above by 1. -/
theorem clamp01_le_one (x : ℚ) : clamp01 x ≤ 1 :=
  max_le (by norm_num) (min_le_left 1 x)

/-- `clamp01` is the identity on [0, 1]. -/
theorem clamp01_of_mem_unit (x : ℚ) (h0 : 0 ≤ x) (h1 : x ≤ 1) : clamp01 x = x := by
  unfold clamp01
  rw [min_eq_right h1, max_eq_right h0]

/-- Counterexample to claim C8 as stated: with supplied
`ingestThreshold = 6/5` and `reviewThreshold = 3/2` the supplied review
threshold exceeds the supplied ingest threshold, yet `setAutoMode` does *not*
throw — both values are clamped to 1 before the comparison, which then
passes. -/
theorem setAutoMode_supplied_order_cex :
    ¬ (isErr (setAutoMode true (6/5) (3/2) true) = true ↔ (6/5 : ℚ) < 3/2) := by
  have h1 : clamp01 (3/2) = 1 := by
    unfold clamp01
    norm_num
  have h2 : clamp01 (6/5) = 1 := by
    unfold clamp01
    norm_num
  intro h
  have : isErr (setAutoMode true (6/5) (3/2) true) = true := h.mpr (by norm_num)
  rw [setAutoMode, h1, h2] at this
  norm_num [isErr] at this

/-- Claim C8, amended: `setAutoMode` throws iff the *clamped* review threshold
exceeds the *clamped* ingest threshold (for supplied values already in [0, 1]
this coincides with the claim's "supplied review > supplied ingest"); every
persisted config satisfies `reviewThreshold ≤ ingestThreshold` with both in
[0, 1]. -/
theorem setAutoMode_threshold_validation (e gbc : Bool) (i r : ℚ) :
    (isErr (setAutoMode e i r gbc) = true ↔ clamp01 i < clamp01 r) ∧
    (∀ cfg, setAutoMode e i r gbc = .ok cfg →
      cfg.reviewThreshold ≤ cfg.ingestThreshold ∧
      0 ≤ cfg.ingestThreshold ∧ cfg.ingestThreshold ≤ 1 ∧
      0 ≤ cfg.reviewThreshold ∧ cfg.reviewThreshold ≤ 1) ∧
    (0 ≤ i → i ≤ 1 → 0 ≤ r → r ≤ 1 →
      (isErr (setAutoMode e i r gbc) = true ↔ i < r)) := by
  refine ⟨?_, ?_, ?_⟩
  · simp only [setAutoMode]
    split_ifs with h
    · simpa [isErr] using h
    · simpa [isErr] using h
  · intro cfg hok
    simp only [setAutoMode] at hok
    split_ifs at hok with h
    cases hok
    exact ⟨le_of_not_lt h, clamp01_nonneg i, clamp01_le_one i,
      clamp01_nonneg r, clamp01_le_one r⟩
  · intro hi0 hi1 hr0 hr1
    simp only [setAutoMode]
    rw [clamp01_of_mem_unit i hi0 hi1, clamp01_of_mem_unit r hr0 hr1]
    split_ifs with h
    · simpa [isErr] using h
    · simpa [isErr] using h

/-- Witness for claim C8's amended theorem: supplied thresholds
`ingest = 0.6`, `review = 0.8` (both already in [0, 1]) are rejected. -/
theorem setAutoMode_threshold_validation_witness :
    isErr (setAutoMode true (0.6) (0.8) true) = true :=
  ((setAutoMode_threshold_validation true true (0.6) (0.8)).2.2
    (by norm_num) (by norm_num) (by norm_num) (by norm_num)).mpr (by norm_num)

/-- Claim C7: for a claimed auto event that passes the auto-mode gate, the
clock gate and the shape check — with `conf` the clamped confidence and the
clamped thresholds read from the game's `autoMode` config (defaults 0.85 /
0.65, review ≤ ingest as `setAutoMode` guarantees) — direct ingestion is
attempted at `conf ≥ ingestThreshold`; one review-queue item with reason
`low_confidence` is pushed and the event queued at
`reviewThreshold ≤ conf < ingestThreshold`; and the event is ignored, with no
review item and no attempt log, at `conf < reviewThreshold`. -/
theorem auto_event_threshold_routing (gameDoc : AGame) (latestGame : Option AGame)
    (ev : AutoEvent)
    (hen : (gameDoc.autoMode.getD
      { enabled := false, ingestThreshold := 0.85, reviewThreshold := 0.65,
        gateByClock := true }).enabled = true)
    (hclock : aClockOk (latestGame.getD gameDoc) = true)
    (hshape : basicOk ev = true)
    (hord : clamp01 ((gameDoc.autoMode.map (·.reviewThreshold)).getD 0.65) ≤
      clamp01 ((gameDoc.autoMode.map (·.ingestThreshold)).getD 0.85)) :
    (clamp01 ((gameDoc.autoMode.map (·.ingestThreshold)).getD 0.85) ≤
        clamp01 (ev.confidence.getD 0) →
      safeProcessDecision gameDoc latestGame ev = .ingestAttempt) ∧
    (clamp01 ((gameDoc.autoMode.map (·.reviewThreshold)).getD 0.65) ≤
        clamp01 (ev.confidence.getD 0) ∧
      clamp01 (ev.confidence.getD 0) <
        clamp01 ((gameDoc.autoMode.map (·.ingestThreshold)).getD 0.85) →
      safeProcessDecision gameDoc latestGame ev = .queued "low_confidence") ∧
    (clamp01 (ev.confidence.getD 0) <
        clamp01 ((gameDoc.autoMode.map (·.reviewThreshold)).getD 0.65) →
      safeProcessDecision gameDoc latestGame ev = .ignored) := by
  have hbase : ∀ d : AutoDecision,
      safeProcessDecision gameDoc latestGame ev = d ↔
      (if clamp01 (ev.confidence.getD 0) ≥
          clamp01 ((gameDoc.autoMode.map (·.ingestThreshold)).getD 0.85) then
        AutoDecision.ingestAttempt
      else if clamp01 (ev.confidence.getD 0) ≥
          clamp01 ((gameDoc.autoMode.map (·.reviewThreshold)).getD 0.65) then
        AutoDecision.queued "low_confidence"
      else AutoDecision.ignored) = d := by
    intro d
    simp only [safeProcessDecision]
    rw [if_neg (by rw [hen]; simp), if_neg (by rw [hclock]; simp),
      if_neg (by rw [hshape]; simp)]
  refine ⟨?_, ?_, ?_⟩
  · intro h
    rw [hbase, if_pos h]
  · rintro ⟨hr, hi⟩
    rw [hbase, if_neg (not_le.mpr hi), if_pos hr]
  · intro h
    rw [hbase, if_neg (not_le.mpr (lt_of_lt_of_le h hord)), if_neg (not_le.mpr h)]

/-- Witness for claim C7 at the default thresholds on `aGameOn`: confidence
0.9 is ingested directly, 0.7 is queued for review with reason
`low_confidence`, 0.5 is ignored. -/
theorem auto_event_threshold_routing_witness :
    safeProcessDecision aGameOn none (mkEvent 0.9) = .ingestAttempt ∧
    safeProcessDecision aGameOn none (mkEvent 0.7) = .queued "low_confidence" ∧
    safeProcessDecision aGameOn none (mkEvent 0.5) = .ignored :=
  ⟨(auto_event_threshold_routing aGameOn none (mkEvent 0.9) rfl rfl rfl
      (show clamp01 0.65 ≤ clamp01 0.85 by norm_num [clamp01])).1
      (show clamp01 0.85 ≤ clamp01 0.9 by norm_num [clamp01]),
   (auto_event_threshold_routing aGameOn none (mkEvent 0.7) rfl rfl rfl
      (show clamp01 0.65 ≤ clamp01 0.85 by norm_num [clamp01])).2.1
      ⟨show clamp01 0.65 ≤ clamp01 0.7 by norm_num [clamp01],
       show clamp01 0.7 < clamp01 0.85 by norm_num [clamp01]⟩,
   (auto_event_threshold_routing aGameOn none (mkEvent 0.5) rfl rfl rfl
      (show clamp01 0.65 ≤ clamp01 0.85 by norm_num [clamp01])).2.2
      (show clamp01 0.5 < clamp01 0.65 by norm_num [clamp01])⟩

/-- Reading a score cell after writing one. -/
theorem Scores.get_set_cell (s : Scores) (t u : Team) (v : Int) :
    (s.set t v).get u = if u = t then v else s.get u := by
  cases t <;> cases u <;> simp [Scores.set, Scores.get]

/-- Writing the same cell twice keeps the last write. -/
theorem Scores.set_set (s : Scores) (t : Team) (v w : Int) :
    (s.set t v).set t w = s.set t w := by
  cases t <;> simp [Scores.set]

/-- Writing a cell's own value back is the identity. -/
theorem Scores.set_get_self (s : Scores) (t : Team) :
    s.set t (s.get t) = s := by
  cases t <;> simp [Scores.set, Scores.get]

/-- A score cell of a non-negative score map is non-negative. -/
theorem Scores.Nonneg.get {s : Scores} (h : s.Nonneg) (t : Team) :
    0 ≤ s.get t := by
  cases t
  · exact h.1
  · exact h.2

/-- Writing a non-negative value preserves score non-negativity. -/
theorem Scores.Nonneg.set {s : Scores} (h : s.Nonneg) (t : Team) {v : Int}
    (hv : 0 ≤ v) : (s.set t v).Nonneg := by
  cases t
  · exact ⟨hv, h.2⟩
  · exact ⟨h.1, hv⟩

/-- Reading a team's specialty flags after writing one team's flags. -/
theorem Specials.get_set_team (s : Specials) (t u : Team) (f : SpecialFlags) :
    (s.set t f).get u = if u = t then f else s.get u := by
  cases t <;> cases u <;> simp [Specials.set, Specials.get]

/-- The shot value table is non-negative. -/
theorem shotPoints_nonneg (t : String) (m mb : Bool) :
    0 ≤ shotPoints t m mb := by
  unfold shotPoints
  split_ifs <;> norm_num

/-- The points of a stored attempt log (raw `moneyball` field) equal the
points computed at write time (with the `willCountMoneyball` flag): the
`moneyball` argument only matters for non-bonus mid/long shots, where the two
flags coincide. -/
theorem shotPoints_raw_eq_willCount (p : ShotParams) :
    shotPoints p.shotType p.made p.moneyball =
      shotPoints p.shotType p.made (willCountMoneyball p) := by
  by_cases hml : p.shotType = "mid" ∨ p.shotType = "long"
  · have hwcm : willCountMoneyball p = p.moneyball := by
      unfold willCountMoneyball
      rcases hml with h | h <;> rw [h] <;> cases p.moneyball <;> decide
    rw [hwcm]
  · unfold shotPoints
    split_ifs <;> rfl

/-- Characterisation of the specialty-recompute fold. -/
theorem specialsStep_foldl (ls : List LogEntry) (acc : Specials) (t : Team) :
    (ls.foldl specialsStep acc).get t =
      { moneyUsed := (acc.get t).moneyUsed ||
          ls.any fun l => l.team = some t && l.moneyball,
        gcUsed := (acc.get t).gcUsed ||
          ls.any fun l => l.team = some t && l.shotType = "gamechanger" } := by
  induction ls generalizing acc with
  | nil => simp
  | cons l ls ih =>
    rw [List.foldl_cons, ih, List.any_cons, List.any_cons]
    cases hlt : l.team with
    | none => simp [specialsStep, hlt]
    | some u =>
      rcases eq_or_ne u t with rfl | hne
      · by_cases hmb : l.moneyball <;> by_cases hgc : l.shotType = "gamechanger" <;>
          simp [specialsStep, hlt, Specials.get_set_team, hmb, hgc, Bool.or_assoc]
      · have : (some u = some t) = False := by simp [hne]
        by_cases hmb : l.moneyball <;> by_cases hgc : l.shotType = "gamechanger" <;>
          simp [specialsStep, hlt, Specials.get_set_team, hne, Ne.symm hne, hmb, hgc]

/-- `recomputeSpecialsForChallenge`, per team: `moneyUsed` is set iff some log
of the window carries a truthy `moneyball` (any shot type), `gcUsed` iff some
log is a gamechanger. -/
theorem recomputeSpecials_get (logs : List LogEntry) (idx : Int) (t : Team) :
    (recomputeSpecialsForChallenge logs idx).get t =
      { moneyUsed := ((logs.filter fun l => l.challengeIndex = idx).take 400).any
          fun l => l.team = some t && l.moneyball,
        gcUsed := ((logs.filter fun l => l.challengeIndex = idx).take 400).any
          fun l => l.team = some t && l.shotType = "gamechanger" } := by
  unfold recomputeSpecialsForChallenge
  rw [specialsStep_foldl]
  cases t <;> rfl

/-- What an accepting run of the validation phase implies about the game
state: no pending `challengeWon`, the returned team key is the player's team,
and the relevant specialty flag of that team was clear when the attempt will
consume one. -/
theorem logShotChecks_ok_facts (meta : ChallengeMeta) (uid : String) (g : Game)
    (p : ShotParams) (tk : Team)
    (h : logShotChecks meta uid (some g) p = .ok tk) :
    g.challengeWon = none ∧ playerTeamKey g p.playerId = some tk ∧
    (willCountMoneyball p = true → (g.specials.get tk).moneyUsed = false) ∧
    (willUseGC p = true → (g.specials.get tk).gcUsed = false) := by
  simp only [logShotChecks] at h
  cases hpt : playerTeamKey g p.playerId with
  | none =>
    simp only [hpt] at h
    split_ifs at h
  | some teamKey =>
    simp only [hpt] at h
    cases hrule : meta.shotRule with
    | none =>
      simp only [hrule] at h
      split_ifs at h with hclk hcw hlock hbonus hmoney hgc hnb <;> cases h <;>
        exact ⟨not_not.mp hcw, rfl,
          fun hw => by
            by_contra hmu
            rw [Bool.not_eq_false] at hmu
            exact hmoney ⟨hw, hmu⟩,
          fun hw => by
            by_contra hgu
            rw [Bool.not_eq_false] at hgu
            exact hgc ⟨hw, hgu⟩⟩
    | some rule =>
      simp only [hrule] at h
      split_ifs at h with hclk hcw hlock hbonus hmoney hgc hnb hstrict <;> cases h <;>
        exact ⟨not_not.mp hcw, rfl,
          fun hw => by
            by_contra hmu
            rw [Bool.not_eq_false] at hmu
            exact hmoney ⟨hw, hmu⟩,
          fun hw => by
            by_contra hgu
            rw [Bool.not_eq_false] at hgu
            exact hgc ⟨hw, hgu⟩⟩

/-- Elimination for a successful repaired transaction: the validation phase
accepted and the result is the mutation phase's output. -/
theorem logShotFixed_ok_elim {meta : ChallengeMeta} {uid : String} {g : Game}
    {logs : List LogEntry} {nextId : Nat} {p : ShotParams}
    {s : Game × List LogEntry}
    (h : logShotFixed meta uid g logs nextId p = .ok s) :
    ∃ tk, logShotChecks meta uid (some g) p = .ok tk ∧
      s = logShotApply meta g logs nextId p tk := by
  unfold logShotFixed at h
  cases hc : logShotChecks meta uid (some g) p with
  | error e =>
    rw [hc] at h
    cases h
  | ok tk =>
    rw [hc] at h
    cases h
    exact ⟨tk, rfl, rfl⟩

/-- The mutation phase preserves score non-negativity (win points are
non-negative in every stored challenge config). -/
theorem logShotApply_nonneg (meta : ChallengeMeta) (g : Game)
    (logs : List LogEntry) (nextId : Nat) (p : ShotParams) (tk : Team)
    (hnn : scoresNonneg g) (hpfw : 0 ≤ meta.pointsForWin) :
    scoresNonneg (logShotApply meta g logs nextId p tk).1 := by
  obtain ⟨hcs, hms⟩ := hnn
  cases hmade : p.made with
  | false =>
    simp only [logShotApply, hmade]
    simp only [Bool.false_eq_true, false_and, if_false]
    split_ifs <;> exact ⟨hcs, hms⟩
  | true =>
    cases hbonus : isBonusType p.shotType with
    | true =>
      simp only [logShotApply, hmade, hbonus]
      simp only [Bool.true_eq_false, false_and, true_and, and_false, if_false, if_true]
      split_ifs <;>
        exact ⟨hcs, hms.set tk (add_nonneg (hms.get tk) (shotPoints_nonneg _ _ _))⟩
    | false =>
      simp only [logShotApply, hmade, hbonus]
      simp only [Bool.false_eq_true, Bool.true_eq_false, false_and, true_and,
        and_false, if_false, if_true, eq_self_iff_true]
      split_ifs <;>
        first
          | exact ⟨hcs.set tk (add_nonneg (hcs.get tk) (shotPoints_nonneg _ _ _)), hms⟩
          | exact ⟨hcs.set tk (add_nonneg (hcs.get tk) (shotPoints_nonneg _ _ _)),
              hms.set tk (add_nonneg (hms.get tk) (mul_nonneg hpfw (by norm_num)))⟩

/-- The undo transaction preserves score non-negativity: every score write it
performs is clamped at zero. -/
theorem deleteLogAndReverse_nonneg (g : Game) (logs : List LogEntry)
    (log : LogEntry) (hnn : scoresNonneg g) :
    scoresNonneg (deleteLogAndReverse g logs log).1 := by
  obtain ⟨hcs, hms⟩ := hnn
  simp only [deleteLogAndReverse]
  cases hcw : g.challengeWon with
  | none =>
    simp only [hcw]
    cases hlt : log.team with
    | none =>
      simp only [hlt]
      split_ifs <;> exact ⟨hcs, hms⟩
    | some t =>
      simp only [hlt]
      split_ifs <;>
        first
          | exact ⟨hcs, hms⟩
          | exact ⟨hcs.set t (le_max_left 0 _), hms⟩
          | exact ⟨hcs, hms.set t (le_max_left 0 _)⟩
  | some cw =>
    simp only [hcw]
    by_cases hwin : log.made = true ∧ isBonusType log.shotType = false ∧
        some cw.team = log.team ∧ cw.atIndex = log.challengeIndex
    · rw [if_pos hwin]
      obtain ⟨hmade, hnb, hteam, -⟩ := hwin
      rw [if_pos hmade, ← hteam]
      simp only [hnb, Bool.false_eq_true, if_false]
      cases hwid : cw.winLogId <;> simp only [hwid] <;>
        exact ⟨hcs.set cw.team (le_max_left 0 _),
          hms.set cw.team (le_max_left 0 _)⟩
    · rw [if_neg hwin]
      cases hlt : log.team with
      | none =>
        simp only [hlt]
        split_ifs <;> exact ⟨hcs, hms⟩
      | some t =>
        simp only [hlt]
        split_ifs <;>
          first
            | exact ⟨hcs, hms⟩
            | exact ⟨hcs.set t (le_max_left 0 _), hms⟩
            | exact ⟨hcs, hms.set t (le_max_left 0 _)⟩

/-- Counterexample to claim C3 as stated: starting from the clean game (all
four cells 0, non-negative), a single accepted `recordShot` suffices to drive
a cell negative when the active challenge config carries a negative
`pointsForWin` — which the repo can store: `createGame` keeps the freestyle
`pointsForWin` unclamped (gameService.js:186) and `updateChallenge` passes the
field through unclamped.  A made gamechanger (5 points) reaches target 5 from
0–0, the shutout doubling applies, and `matchScore.A` becomes
`0 + (-3) × 2 = -6`. -/
theorem scores_never_negative_cex :
    scoresNonneg gLive ∧
    ([GameOp.shot metaNegWin "op" 1 pGcMade].foldl applyOp
        (gLive, [])).1.matchScore.A = -6 ∧
    ¬ scoresNonneg (([GameOp.shot metaNegWin "op" 1 pGcMade].foldl applyOp
        (gLive, [])).1) := by
  decide

/-- Claim C3, amended: from any initial state with non-negative scores, every
finite sequence of `recordShot` and `reverseShot` calls keeps all four cells
of `challengeScore` and `matchScore` non-negative, *provided every recorded
shot's challenge config has a non-negative `pointsForWin`* — the amendment the
counterexample forces, since `createGame`'s freestyle path and
`updateChallenge` store the value unclamped.  Under that hypothesis accepted
shots only add non-negative values (the point table is non-negative), rejected
shots change nothing, and every subtraction in the undo path is clamped with
`Math.max(0, …)` unconditionally.  (Recorded shots run through the repaired
transaction `logShotFixed`; the unrepaired `logShot` of claim C1 never changes
state, so the property holds for it a fortiori.) -/
theorem scores_never_negative (init : Game × List LogEntry) (ops : List GameOp)
    (h0 : scoresNonneg init.1) (hops : ∀ op ∈ ops, opWellFormed op) :
    scoresNonneg ((ops.foldl applyOp init).1) := by
  induction ops generalizing init with
  | nil => exact h0
  | cons op ops ih =>
    rw [List.foldl_cons]
    apply ih
    · cases op with
      | shot meta uid nextId p =>
        simp only [applyOp]
        cases hfix : logShotFixed meta uid init.1 init.2 nextId p with
        | error e => exact h0
        | ok s =>
          obtain ⟨tk, hchk, hs⟩ := logShotFixed_ok_elim hfix
          show scoresNonneg s.1
          rw [hs]
          exact logShotApply_nonneg meta init.1 init.2 nextId p tk h0
            (hops _ (List.mem_cons_self _ _))
      | undo log =>
        exact deleteLogAndReverse_nonneg init.1 init.2 log h0
    · intro o ho
      exact hops o (List.mem_cons_of_mem _ ho)

/-- Witness for claim C3: a winning shot, an undo of a foreign log (clamped at
zero), and the undo of the winning shot keep all scores non-negative. -/
theorem scores_never_negative_witness :
    scoresNonneg ((nonnegOps.foldl applyOp (gLive, [])).1) :=
  scores_never_negative (gLive, []) nonnegOps (by decide) (by decide)

/-- Claim C4: a non-bonus made shot accepted by the transaction that lifts the
shooting team's challenge score to the (positive) target is awarded exactly
`2 × pointsForWin` match points when the opposing team's challenge score was
exactly 0, and exactly `1 × pointsForWin` otherwise; in the same transaction
`challengeWon` is set, its `winLogId` names the win log, and that win log is
persisted.  (Proved against the repaired transaction: the unrepaired `logShot`
of claim C1 aborts every commit.) -/
theorem win_award_shutout_doubling (meta : ChallengeMeta) (uid : String)
    (g : Game) (logs : List LogEntry) (nextId : Nat) (p : ShotParams) (tk : Team)
    (hchk : logShotChecks meta uid (some g) p = .ok tk)
    (hmade : p.made = true)
    (hbonus : isBonusType p.shotType = false)
    (htarget : 0 < meta.target)
    (hreach : meta.target ≤ g.challengeScore.get tk +
      shotPoints p.shotType p.made (willCountMoneyball p)) :
    logShotFixed meta uid g logs nextId p =
      .ok (logShotApply meta g logs nextId p tk) ∧
    (logShotApply meta g logs nextId p tk).1.matchScore.get tk =
      g.matchScore.get tk + meta.pointsForWin *
        (if g.challengeScore.get tk.opp = 0 then 2 else 1) ∧
    (∃ w, (logShotApply meta g logs nextId p tk).1.challengeWon = some w ∧
      w.team = tk ∧ w.pointsForWin = meta.pointsForWin ∧
      (w.shutout = true ↔ g.challengeScore.get tk.opp = 0) ∧
      w.winLogId = some (nextId + 1)) ∧
    mkWinLog p.playerId tk g.currentChallengeIndex (nextId + 1) ∈
      (logShotApply meta g logs nextId p tk).2 := by
  rw [hmade] at hreach
  refine ⟨?_, ?_⟩
  · unfold logShotFixed
    rw [hchk]
  · simp only [logShotApply, hmade, hbonus]
    simp only [Bool.false_eq_true, Bool.true_eq_false, false_and, true_and,
      and_false, if_false, if_true, eq_self_iff_true]
    rw [if_pos ⟨htarget, hreach⟩]
    refine ⟨?_, ⟨⟨_, rfl, rfl, rfl, ?_, rfl⟩, ?_⟩⟩
    · rw [Scores.get_set_cell]
      rw [if_pos rfl]
    · exact decide_eq_true_iff
    · simp [List.mem_append]

/-- Witness for claim C4: from `gFourUp` (challenge score 4–0, target 5, win
points 2) the made mid shot wins with a shutout, awarding
`2 × 2 = 4` match points. -/
theorem win_award_shutout_doubling_witness :
    (logShotApply metaWin gFourUp [] 1 pMid Team.A).1.matchScore.get Team.A = 4 := by
  have h := win_award_shutout_doubling metaWin "op" gFourUp [] 1 pMid Team.A
    (by decide) rfl (by decide) (by decide) (by decide)
  rw [h.2.1]
  decide

/-- The shooting team's specialty flags after the mutation phase: `moneyUsed`
and `gcUsed` are each forced to `true` when the attempt consumes them
(whether made or missed), otherwise kept. -/
theorem logShotApply_specials_get (meta : ChallengeMeta) (g : Game)
    (logs : List LogEntry) (nextId : Nat) (p : ShotParams) (tk : Team) :
    ((logShotApply meta g logs nextId p tk).1.specials).get tk =
      { moneyUsed := willCountMoneyball p || (g.specials.get tk).moneyUsed,
        gcUsed := willUseGC p || (g.specials.get tk).gcUsed } := by
  cases hwcm : willCountMoneyball p <;> cases hwgc : willUseGC p <;>
    simp only [logShotApply, hwcm, hwgc, Bool.false_eq_true, Bool.true_eq_false,
      if_true, if_false, eq_self_iff_true, Bool.false_or, Bool.true_or] <;>
    split_ifs <;>
    simp [Specials.get_set_team]

/-- `countedGC` coincides with the recompute's gamechanger test: the
`'gamechanger'` shot type is never a bonus type. -/
theorem countedGC_eq_gamechanger (l : LogEntry) :
    countedGC l = decide (l.shotType = "gamechanger") := by
  by_cases h : l.shotType = "gamechanger"
  · unfold countedGC
    rw [h]
    decide
  · simp [countedGC, h]

/-- A counted moneyball log carries the raw `moneyball` flag. -/
theorem countedMoneyball_to_moneyball {l : LogEntry}
    (h : countedMoneyball l = true) : l.moneyball = true := by
  unfold countedMoneyball at h
  rw [Bool.and_eq_true, Bool.and_eq_true] at h
  exact h.1.1

/-- Claim C10, amended: (i) a moneyball mid/long attempt is rejected while the
team's `moneyUsed` flag is set, and a gamechanger attempt while `gcUsed` is
set; (ii) an accepted attempt consumes the flag whether made or missed;
(iii) after an undo, the recomputed `gcUsed` agrees with the write-time rule
unconditionally, while the recomputed `moneyUsed` marks *any* remaining log
whose raw `moneyball` field is set — this agrees with the write-time
mid/long-only rule exactly on log windows whose moneyball flags all sit on
non-bonus mid/long attempts (as stated, the unconditional agreement fails, see
the counterexample). -/
theorem specialty_single_use_amended :
    (∀ meta uid g logs nextId p tk,
      playerTeamKey g p.playerId = some tk →
      willCountMoneyball p = true → (g.specials.get tk).moneyUsed = true →
      isErr (logShotFixed meta uid g logs nextId p) = true) ∧
    (∀ meta uid g logs nextId p tk,
      playerTeamKey g p.playerId = some tk →
      willUseGC p = true → (g.specials.get tk).gcUsed = true →
      isErr (logShotFixed meta uid g logs nextId p) = true) ∧
    (∀ meta g logs nextId p tk,
      (willCountMoneyball p = true →
        ((logShotApply meta g logs nextId p tk).1.specials.get tk).moneyUsed = true) ∧
      (willUseGC p = true →
        ((logShotApply meta g logs nextId p tk).1.specials.get tk).gcUsed = true)) ∧
    (∀ logs idx t,
      (((recomputeSpecialsForChallenge logs idx).get t).gcUsed =
        ((logs.filter fun l => l.challengeIndex = idx).take 400).any
          fun l => l.team = some t && countedGC l) ∧
      ((∀ l ∈ (logs.filter fun l => l.challengeIndex = idx).take 400,
          l.moneyball = true → countedMoneyball l = true) →
        ((recomputeSpecialsForChallenge logs idx).get t).moneyUsed =
          ((logs.filter fun l => l.challengeIndex = idx).take 400).any
            fun l => l.team = some t && countedMoneyball l)) := by
  refine ⟨?_, ?_, ?_, ?_⟩
  · intro meta uid g logs nextId p tk hpt hwcm hmu
    unfold logShotFixed
    cases hchk : logShotChecks meta uid (some g) p with
    | error e => rfl
    | ok tk2 =>
      exfalso
      obtain ⟨-, hpt2, hmoney, -⟩ := logShotChecks_ok_facts meta uid g p tk2 hchk
      rw [hpt] at hpt2
      cases Option.some.inj hpt2
      rw [hmoney hwcm] at hmu
      cases hmu
  · intro meta uid g logs nextId p tk hpt hwgc hgu
    unfold logShotFixed
    cases hchk : logShotChecks meta uid (some g) p with
    | error e => rfl
    | ok tk2 =>
      exfalso
      obtain ⟨-, hpt2, -, hgc⟩ := logShotChecks_ok_facts meta uid g p tk2 hchk
      rw [hpt] at hpt2
      cases Option.some.inj hpt2
      rw [hgc hwgc] at hgu
      cases hgu
  · intro meta g logs nextId p tk
    rw [logShotApply_specials_get]
    constructor
    · intro hw
      rw [hw]
      rfl
    · intro hw
      rw [hw]
      rfl
  · intro logs idx t
    constructor
    · rw [recomputeSpecials_get]
      have hfun : (fun (l : LogEntry) => l.team = some t && countedGC l) =
          fun l => l.team = some t && l.shotType = "gamechanger" := by
        funext l
        rw [countedGC_eq_gamechanger]
      rw [hfun]
    · intro hprov
      rw [recomputeSpecials_get]
      rw [Bool.eq_iff_iff, List.any_eq_true, List.any_eq_true]
      constructor
      · rintro ⟨l, hl, hpl⟩
        rw [Bool.and_eq_true] at hpl
        refine ⟨l, hl, ?_⟩
        rw [Bool.and_eq_true]
        exact ⟨hpl.1, hprov l hl hpl.2⟩
      · rintro ⟨l, hl, hpl⟩
        rw [Bool.and_eq_true] at hpl
        refine ⟨l, hl, ?_⟩
        rw [Bool.and_eq_true]
        exact ⟨hpl.1, countedMoneyball_to_moneyball hpl.2⟩

/-- Counterexample to claim C10 as stated: record the moneyball-flagged
gamechanger (consumes `gcUsed` only — the write-time rule counts moneyball
only on mid/long), record a plain mid make, undo the mid make.  The trailing
recompute sets team A's `moneyUsed` although no remaining log is a counted
moneyball attempt under the write-time rule — a fresh moneyball mid shot is
now spuriously rejected. -/
theorem specialty_recompute_divergence_cex :
    ((divergenceFinal.1.specials.get Team.A).moneyUsed = true ∧
      (divergenceFinal.2.any fun l => l.team = some Team.A && countedMoneyball l)
        = false) ∧
    isErr (logShotFixed baseMeta "op" divergenceFinal.1 divergenceFinal.2 3
      pMidMoney) = true := by
  decide

/-- Witness for claim C10's amended theorem: a second moneyball mid shot is
rejected while `moneyUsed` is set, and an accepted (missed) moneyball mid shot
consumes the flag. -/
theorem specialty_single_use_witness :
    isErr (logShotFixed baseMeta "op" gMoneyUsed [] 1 pMidMoney) = true ∧
    ((logShotApply baseMeta gLive [] 1 pMidMoney Team.A).1.specials.get
      Team.A).moneyUsed = true :=
  ⟨specialty_single_use_amended.1 baseMeta "op" gMoneyUsed [] 1 pMidMoney Team.A
      (by decide) (by decide) (by decide),
   (specialty_single_use_amended.2.2.1 baseMeta gLive [] 1 pMidMoney Team.A).1
      (by decide)⟩

/-- Filtering out an id above every id in the list keeps the list. -/
theorem filter_fresh_eq_self (logs : List LogEntry) (n m : Nat)
    (hfresh : ∀ l ∈ logs, l.id < n) (hnm : n ≤ m) :
    (logs.filter fun l => l.id ≠ m) = logs := by
  apply List.filter_eq_self.mpr
  intro l hl
  simp only [decide_eq_true_eq]
  exact Nat.ne_of_lt (lt_of_lt_of_le (hfresh l hl) hnm)

/-- Counterexample to claim C2 as stated: in the pre-state `gAfterGc` —
reached from a clean game by recording the moneyball-flagged gamechanger
`pGcMoney`, whose write-time processing consumes `gcUsed` but not
`moneyUsed` — recording the plain mid make `pMid` and immediately reversing
its log does *not* restore the game document: the undo-time recompute counts
the gamechanger log's raw `moneyball` field and flips team A's `moneyUsed`
from `false` to `true`. -/
theorem undo_not_exact_inverse_cex :
    logShotFixed baseMeta "op" gAfterGc logsAfterGc 1 pMid =
      .ok (gAfterGcMid, logsAfterGcMid) ∧
    (deleteLogAndReverse gAfterGcMid logsAfterGcMid
      (mkAttemptLog pMid Team.A 0 1)).1 ≠ gAfterGc := by
  decide

/-- Claim C2, amended: for every accepted attempt recorded from a pre-state
with non-negative scores whose specialty flags agree with the recompute over
its logs at the current challenge index (the amendment the counterexample
forces — without it the undo-time recompute can invent a `moneyUsed` flag),
and with fresh log ids, immediately reversing the attempt's log restores the
game document and the log list exactly: scores return to their prior values
(a doubled shutout award included), `challengeWon` is cleared and the linked
win log deleted when the undone attempt was the winning shot, and both teams'
specialty flags are restored by the recompute.  (Per claim C1 the unrepaired
`logShot` accepts nothing; this is about the repaired transaction.) -/
theorem recordShot_reverseShot_exact_inverse (meta : ChallengeMeta)
    (uid : String) (g : Game) (logs : List LogEntry) (nextId : Nat)
    (p : ShotParams) (tk : Team)
    (hchk : logShotChecks meta uid (some g) p = .ok tk)
    (hfresh : ∀ l ∈ logs, l.id < nextId)
    (hnn : scoresNonneg g)
    (hcons : g.specials = recomputeSpecialsForChallenge logs g.currentChallengeIndex) :
    logShotFixed meta uid g logs nextId p =
      .ok (logShotApply meta g logs nextId p tk) ∧
    deleteLogAndReverse (logShotApply meta g logs nextId p tk).1
        (logShotApply meta g logs nextId p tk).2
        (mkAttemptLog p tk g.currentChallengeIndex nextId) =
      (g, logs) := by
  constructor
  · unfold logShotFixed
    rw [hchk]
  · obtain ⟨hcs, hms⟩ := hnn
    obtain ⟨hcw, hpt, -, -⟩ := logShotChecks_ok_facts _ _ _ _ _ hchk
    cases hmade : p.made with
    | false =>
      simp only [logShotApply, hmade, Bool.false_eq_true, false_and, if_false]
      split_ifs <;>
      · simp only [deleteLogAndReverse, mkAttemptLog, hcw, hmade,
          Bool.false_eq_true, if_false]
        rw [List.filter_append,
          filter_fresh_eq_self logs nextId nextId hfresh (le_refl _)]
        simp only [List.filter_cons, List.filter_nil, decide_eq_true_eq, ne_eq,
          not_true_eq_false, if_false, List.append_nil]
        rw [← hcons, ← hcw]
    | true =>
      have hpts2 : shotPoints p.shotType true p.moneyball =
          shotPoints p.shotType true (willCountMoneyball p) := by
        have h := shotPoints_raw_eq_willCount p
        rw [hmade] at h
        exact h
      cases hbonus : isBonusType p.shotType with
      | true =>
        have hwcm : willCountMoneyball p = false := by
          unfold willCountMoneyball
          rw [hbonus]
          rfl
        have hwgc : willUseGC p = false := by
          unfold willUseGC
          rw [hbonus]
          rfl
        rw [hwcm] at hpts2
        simp only [logShotApply, hmade, hbonus, hwcm, hwgc, Bool.false_eq_true,
          Bool.true_eq_false, false_and, true_and, and_false, if_false, if_true,
          eq_self_iff_true]
        simp only [deleteLogAndReverse, mkAttemptLog, hcw, hmade, hbonus,
          eq_self_iff_true, if_true, Bool.false_eq_true, if_false]
        rw [hpts2, Scores.get_set_cell]
        rw [if_pos rfl, add_sub_cancel_right, max_eq_right (hms.get tk),
          Scores.set_set, Scores.set_get_self]
        rw [List.filter_append,
          filter_fresh_eq_self logs nextId nextId hfresh (le_refl _)]
        simp only [List.filter_cons, List.filter_nil, decide_eq_true_eq, ne_eq,
          not_true_eq_false, if_false, List.append_nil]
        rw [← hcons, ← hcw]
      | false =>
        have hne1 : (nextId : Nat) ≠ nextId + 1 := by omega
        simp only [logShotApply, hmade, hbonus, Bool.false_eq_true,
          Bool.true_eq_false, false_and, true_and, and_false, if_false, if_true,
          eq_self_iff_true]
        by_cases hwin : meta.target > 0 ∧
            g.challengeScore.get tk +
              shotPoints p.shotType true (willCountMoneyball p) ≥ meta.target
        · rw [if_pos hwin]
          cases hwcm : willCountMoneyball p <;> cases hwgc : willUseGC p <;>
            rw [hwcm] at hpts2 <;>
            simp only [hwcm, hwgc, Bool.false_eq_true, Bool.true_eq_false,
              if_false, if_true, eq_self_iff_true] <;>
            simp only [deleteLogAndReverse, mkAttemptLog, mkWinLog, hmade,
              hbonus, hcw, hpts2, eq_self_iff_true, if_true, Bool.false_eq_true,
              Bool.true_eq_false, if_false, decide_eq_true_eq, true_and,
              and_true, Scores.get_set_cell, add_sub_cancel_right] <;>
            rw [max_eq_right (hcs.get tk), max_eq_right (hms.get tk)] <;>
            simp only [Scores.set_set, Scores.set_get_self] <;>
            rw [List.filter_append,
              filter_fresh_eq_self logs nextId (nextId + 1) hfresh
                (Nat.le_succ _)] <;>
            simp only [List.filter_cons, List.filter_nil, decide_eq_true_eq,
              ne_eq, not_true_eq_false, if_false, List.append_nil, hne1,
              not_false_eq_true, if_true] <;>
            rw [List.filter_append,
              filter_fresh_eq_self logs nextId nextId hfresh (le_refl _)] <;>
            simp only [List.filter_cons, List.filter_nil, decide_eq_true_eq,
              ne_eq, not_true_eq_false, if_false, List.append_nil] <;>
            rw [← hcons, ← hcw]
        · rw [if_neg hwin]
          cases hwcm : willCountMoneyball p <;> cases hwgc : willUseGC p <;>
            rw [hwcm] at hpts2 <;>
            simp only [hwcm, hwgc, Bool.false_eq_true, Bool.true_eq_false,
              if_false, if_true, eq_self_iff_true] <;>
            simp only [deleteLogAndReverse, mkAttemptLog, mkWinLog, hmade,
              hbonus, hcw, hpts2, eq_self_iff_true, if_true, Bool.false_eq_true,
              Bool.true_eq_false, if_false, decide_eq_true_eq, true_and,
              and_true, Scores.get_set_cell, add_sub_cancel_right] <;>
            rw [max_eq_right (hcs.get tk)] <;>
            simp only [Scores.set_set, Scores.set_get_self] <;>
            rw [List.filter_append,
              filter_fresh_eq_self logs nextId nextId hfresh (le_refl _)] <;>
            simp only [List.filter_cons, List.filter_nil, decide_eq_true_eq,
              ne_eq, not_true_eq_false, if_false, List.append_nil] <;>
            rw [← hcons, ← hcw]

/-- Witness for claim C2's amended theorem: from `gFourUp` (4–0, target 5) the
made mid shot wins with a doubled shutout award; reversing its log restores
`gFourUp` and the empty log list exactly — win log and `challengeWon`
included. -/
theorem recordShot_reverseShot_exact_inverse_witness :
    deleteLogAndReverse (logShotApply metaWin gFourUp [] 1 pMid Team.A).1
        (logShotApply metaWin gFourUp [] 1 pMid Team.A).2
        (mkAttemptLog pMid Team.A 0 1) = (gFourUp, []) := by
  have h := recordShot_reverseShot_exact_inverse metaWin "op" gFourUp [] 1 pMid
    Team.A (by decide) (by decide) (by decide) (by decide)
  exact h.2

end Wellball
